import Mathlib

/-!
Shallow embedding of the discord-embed-checker validation core.

The repository has two drafts of the validator:
* `src/script.js` — the later draft: `checkJSON` plus the asynchronous,
  memoized image prober `checkImage`;
* `src/unnamed/part_000` — the earlier draft: a synchronous `checkJSON`
  with a regex-based URL validator and no image prober.

JavaScript values produced by `JSON.parse` are modelled by `JSVal`
(numbers as integers — every input relevant here is integral; strings by
Lean strings, `String.length` standing for the JS UTF-16 length, which
agrees on all ASCII inputs considered).  An absent property (`undefined`)
is modelled by `none : Option JSVal`.  The network and the global
`checkedImageLinks` cache are passed explicitly: the fetch oracle maps a
URL to a `FetchOutcome`, and the cache is an association list threaded
through the computation.
-/

/-- A JavaScript value as produced by `JSON.parse`: `null`, booleans,
numbers (integral), strings, arrays and objects.  An object is the list of
its own enumerable properties in insertion order; `JSON.parse` yields
objects whose keys are distinct. -/
inductive JSVal where
  | null
  | bool (b : Bool)
  | num (n : Int)
  | str (s : String)
  | arr (elems : List JSVal)
  | obj (props : List (String × JSVal))

/-- JS truthiness of a defined value: `null`, `false`, `0` and `""` are
falsy; arrays and objects are always truthy. -/
def truthyV : JSVal → Bool
  | .null => false
  | .bool b => b
  | .num n => n != 0
  | .str s => s != ""
  | .arr _ => true
  | .obj _ => true

/-- JS truthiness with `undefined` (`none`) being falsy. -/
def truthyO : Option JSVal → Bool
  | none => false
  | some v => truthyV v

/-- Property access `v.k` on a defined value: a lookup for objects,
`undefined` for every other value (the property names used by the checker
are never own properties of arrays, strings, numbers or booleans). -/
def getField : JSVal → String → Option JSVal
  | .obj props, k => props.lookup k
  | _, _ => none

/-- Property access on a possibly-undefined value; only used where the
code has already guarded against `undefined`/`null` by a truthiness
check. -/
def getFieldO : Option JSVal → String → Option JSVal
  | none, _ => none
  | some v, k => getField v k

/-- `typeof v == 'object'` for a defined value (`null`, arrays and plain
objects). -/
def isObjectType : JSVal → Bool
  | .null => true
  | .obj _ => true
  | .arr _ => true
  | _ => false

/-- `Array.isArray` lifted to a possibly-undefined value. -/
def isArrayO : Option JSVal → Bool
  | some (.arr _) => true
  | _ => false

/-- `v.length > n` under JS semantics: defined for strings and arrays,
`undefined > n` is false for everything else. -/
def jsLengthGt (v : Option JSVal) (n : Nat) : Bool :=
  match v with
  | some (.arr xs) => xs.length > n
  | some (.str s) => s.length > n
  | _ => false

/-- `v.length === 0` under JS semantics (strict equality with a missing
`length` property is false). -/
def jsLengthEq0 : Option JSVal → Bool
  | some (.arr xs) => xs.isEmpty
  | some (.str s) => s == ""
  | _ => false

/-- `string.replace(/[ \n]/g, '')`: remove spaces and newlines (only
those two characters). -/
def stripSpaceNewline (s : String) : String :=
  ⟨s.data.filter fun c => !(c == ' ' || c == '\n')⟩

/-- `isStringEmpty` (both drafts): true for every falsy or non-string
value, and for strings that are empty after removing spaces and
newlines. -/
def isStringEmpty : Option JSVal → Bool
  | some (.str s) => if s == "" then true else stripSpaceNewline s == ""
  | _ => true

/-- `isValidColor` (both drafts): the value is a number in `[0, 16777215]`. -/
def isValidColor : Option JSVal → Bool
  | some (.num n) => n ≥ 0 && n ≤ 16777215
  | _ => false

/-- The regex `^\d{4}-\d{2}-\d{2}T\d{2}:\d{2}:\d{2}(\.\d{3})?Z$` of
`isISODate`, matched against the character list of a string. -/
def isoDatePattern : List Char → Bool
  | [y1, y2, y3, y4, '-', m1, m2, '-', d1, d2, 'T',
     h1, h2, ':', n1, n2, ':', s1, s2, 'Z'] =>
    [y1, y2, y3, y4, m1, m2, d1, d2, h1, h2, n1, n2, s1, s2].all Char.isDigit
  | [y1, y2, y3, y4, '-', m1, m2, '-', d1, d2, 'T',
     h1, h2, ':', n1, n2, ':', s1, s2, '.', f1, f2, f3, 'Z'] =>
    [y1, y2, y3, y4, m1, m2, d1, d2, h1, h2, n1, n2, s1, s2, f1, f2, f3].all Char.isDigit
  | _ => false

/-- `isISODate` (both drafts): the regex test of the value.  The checker
only reaches it on truthy values; for the non-string ones the JS string
coercion (`"[object Object]"`, comma-joined arrays, decimal numerals)
never matches the anchored date pattern, so the test is false. -/
def isISODate : Option JSVal → Bool
  | some (.str s) => isoDatePattern s.data
  | _ => false

/-- `suffixes[i]` for `suffixes = ['th', 'st', 'nd', 'rd']`: indexing a
4-element JS array, `undefined` out of range. -/
def suffixIdx (i : Int) : Option String :=
  if i = 0 then some "th"
  else if i = 1 then some "st"
  else if i = 2 then some "nd"
  else if i = 3 then some "rd"
  else none

/-- The suffix chosen by `ordinal` for `value = number % 100`:
`suffixes[(value - 20) % 10] || suffixes[value] || suffixes[0]` with the
JS truncating remainder (all suffix strings are truthy, so `||` takes the
first defined alternative). -/
def suffixFor (value : Nat) : String :=
  match suffixIdx (Int.tmod ((value : Int) - 20) 10) with
  | some s => s
  | none =>
    match suffixIdx (value : Int) with
    | some s => s
    | none => "th"

/-- `ordinal` (both drafts): the number followed by its English ordinal
suffix. -/
def ordinal (number : Nat) : String :=
  Nat.repr number ++ suffixFor (number % 100)

example : ordinal 1 = "1st" := by decide
example : ordinal 11 = "11th" := by decide
example : ordinal 21 = "21st" := by decide
example : ordinal 100 = "100th" := by decide
example : ordinal 112 = "112th" := by decide

/-- `getStringErrors` (both drafts): `null` when the value is allowed to
be absent and is falsy; "is empty" for falsy or (when emptiness is
disallowed) whitespace-only values; "is not a string" for truthy
non-strings; "is too long" past `maxLength` (always passed non-zero, so
its JS truthiness test succeeds). -/
def getStringErrors (v : Option JSVal) (pre : String) (allowEmpty : Bool)
    (maxLength : Nat) : Option String :=
  if allowEmpty && !truthyO v then none
  else if !truthyO v || (!allowEmpty && isStringEmpty v) then some (pre ++ " is empty")
  else
    match v with
    | some (.str s) =>
      if maxLength != 0 && s.length > maxLength then
        some (pre ++ " is too long (>" ++ Nat.repr maxLength ++ " characters)")
      else none
    | _ => some (pre ++ " is not a string")

/-- Modelled from the spec: the WHATWG `URL` constructor called by the
later draft of `isValidURL` is a platform builtin, not part of this
repository.  This models the behavior the code observes — `new URL(s)`
throws unless `s` is an absolute URL `scheme:rest` (ASCII-letter-led
scheme of letters, digits, `+`, `-`, `.`); for the special schemes
`http`/`https` the rest must be `//` followed by a nonempty host; on
success `urlobj.protocol` is the lowercased scheme followed by `:`. -/
def parseURLProtocol (s : String) : Option String :=
  match s.data with
  | [] => none
  | c :: rest =>
    if !c.isAlpha then none
    else
      let isSchemeChar : Char → Bool := fun c =>
        c.isAlpha || c.isDigit || c == '+' || c == '-' || c == '.'
      let schemeTail := rest.takeWhile isSchemeChar
      let afterScheme := rest.dropWhile isSchemeChar
      match afterScheme with
      | ':' :: rest' =>
        let proto := String.mk ((c :: schemeTail).map Char.toLower) ++ ":"
        if proto == "http:" || proto == "https:" then
          match rest' with
          | '/' :: '/' :: hostAndMore =>
            let host := hostAndMore.takeWhile fun c =>
              !(c == '/' || c == '?' || c == '#')
            if host.isEmpty then none else some proto
          | _ => none
        else some proto
      | _ => none

/-- `isValidURL` (later draft, `src/script.js`): falsy values are valid,
non-strings invalid; otherwise the string must parse as a URL whose
protocol is `http:` or `https:`. -/
def isValidURL (url : Option JSVal) : Bool :=
  if !truthyO url then true
  else
    match url with
    | some (.str s) =>
      match parseURLProtocol s with
      | some proto => proto == "http:" || proto == "https:"
      | none => false
    | _ => false

example : isValidURL (some (.str "http://example.com")) = true := by decide
example : isValidURL (some (.str "ftp://example.com")) = false := by decide
example : isValidURL (some (.str "example.com")) = false := by decide
example : isValidURL none = true := by decide

/-- The data of one HTTP response as consumed by `checkImage`: the `ok`
flag, status, status text and `Content-Type` header (`none` when the
header is missing). -/
inductive FetchOutcome where
  | failure
  | response (ok : Bool) (status : Nat) (statusText : String)
      (contentType : Option String)

/-- An entry of the `checkedImageLinks` cache: the unprefixed message and
its kind (`"error"`, `"warning"` or `null`). -/
structure Classified where
  text : Option String
  kind : Option String
  deriving Repr, DecidableEq

/-- The global `checkedImageLinks` map, as an insertion-ordered
association list keyed by the raw URL string. -/
abbrev ImageCache := List (String × Classified)

/-- `checkedImageLinks.set`: overwrite in place or append. -/
def cacheSet (c : ImageCache) (k : String) (v : Classified) : ImageCache :=
  match c with
  | [] => [(k, v)]
  | (k', v') :: rest =>
    if k' == k then (k, v) :: rest else (k', v') :: cacheSet rest k v

/-- `String.prototype.startsWith(pre)`: `pre` is a prefix of the
string. -/
def strStartsWith (s pre : String) : Bool := pre.data.isPrefixOf s.data

/-- The classification `checkImage` computes on a cache miss from the
fetch outcome: transport failure, non-2xx status, missing/non-`image/`
content type and unsupported image subtype are warnings; a supported
image is no issue. -/
def classify (o : FetchOutcome) : Classified :=
  match o with
  | .failure => ⟨some "could not be checked", some "warning"⟩
  | .response ok status statusText contentType =>
    if !ok then
      ⟨some ("gave bad response (" ++ Nat.repr status ++ " " ++ statusText ++ ")"),
        some "warning"⟩
    else
      match contentType with
      | none => ⟨some "is not an image", some "warning"⟩
      | some ct =>
        if !strStartsWith ct "image/" then
          ⟨some "is not an image", some "warning"⟩
        else if !(["image/png", "image/jpeg", "image/gif", "image/webp"].contains ct) then
          ⟨some "is an unsupported image type (should be png, jpeg, gif, or webp)",
            some "warning"⟩
        else ⟨none, none⟩

/-- What `checkImage` returns: the literal `false` for an absent URL, or
an object with `text` and `kind` properties. -/
inductive ImageRet where
  | boolFalse
  | result (c : Classified)
  deriving Repr, DecidableEq

/-- `res.kind` as read by `checkJSON` (`undefined` on the `false`
return). -/
def retKind : ImageRet → Option String
  | .boolFalse => none
  | .result c => c.kind

/-- `res.text` as read by `checkJSON` (`undefined` on the `false`
return). -/
def retText : ImageRet → Option String
  | .boolFalse => none
  | .result c => c.text

/-- The observable effect of one `checkImage` call: its return value, the
cache afterwards, and how many network fetches it issued. -/
structure ImageCall where
  ret : ImageRet
  cache : ImageCache
  fetches : Nat

/-- `checkImage` (later draft): falsy URL returns `false`; truthy
non-strings and invalid URLs are errors; otherwise the memo cache is
consulted, a miss fetches and classifies, the entry is (re)stored, and a
truthy text is prefixed with the label. -/
def checkImage (fetchO : String → FetchOutcome) (cache : ImageCache)
    (url : Option JSVal) (pre : String) : ImageCall :=
  if !truthyO url then ⟨.boolFalse, cache, 0⟩
  else
    match url with
    | some (.str u) =>
      if !isValidURL (some (.str u)) then
        ⟨.result ⟨some (pre ++ " is not a valid URL"), some "error"⟩, cache, 0⟩
      else
        let hit := cache.lookup u
        let cls : Classified := match hit with
          | some entry => entry
          | none => classify (fetchO u)
        let fetches : Nat := match hit with
          | some _ => 0
          | none => 1
        let text' : Option String := match cls.text with
          | none => none
          | some t => if t == "" then some t else some (pre ++ " " ++ t)
        ⟨.result ⟨text', cls.kind⟩, cacheSet cache u cls, fetches⟩
    | _ => ⟨.result ⟨some (pre ++ " is not a string"), some "error"⟩, cache, 0⟩

/-- `if (res.kind == 'error') errors.push(res.text)`. -/
def imgErrPush (r : ImageRet) : List (Option String) :=
  if retKind r == some "error" then [retText r] else []

/-- `if (res.kind == 'warning') warnings.push(res.text)`. -/
def imgWarnPush (r : ImageRet) : List (Option String) :=
  if retKind r == some "warning" then [retText r] else []

/-- Errors and warnings contributed by one section of `checkJSON` (in
push order, `null` pushes included), with the cache afterwards. -/
structure SectionRes where
  errs : List (Option String)
  warns : List (Option String)
  cache : ImageCache

/-- The footer section of the later `checkJSON`: for a truthy object,
length-check `footer.text`, probe `footer.icon_url`, and warn when the
icon would be dropped for lack of text; truthy non-objects are an
error. -/
def footerChecks (fetchO : String → FetchOutcome) (cache : ImageCache)
    (footer : Option JSVal) : SectionRes :=
  if !truthyO footer then ⟨[], [], cache⟩
  else
    match footer with
    | some fv =>
      if isObjectType fv then
        let text := getField fv "text"
        let icon := getField fv "icon_url"
        let e1 := getStringErrors text "Footer" true 2048
        let call := checkImage fetchO cache icon "Footer icon"
        let w2 : Option String :=
          if isStringEmpty text && truthyO icon then
            some "Footer icon will not be shown without text"
          else none
        ⟨[e1] ++ imgErrPush call.ret, imgWarnPush call.ret ++ [w2], call.cache⟩
      else ⟨[some "Footer is not an object"], [], cache⟩
    | none => ⟨[], [], cache⟩

/-- The image and thumbnail sections of the later `checkJSON`: for a
truthy object, probe its `url` under the given label; truthy non-objects
are an error. -/
def mediaChecks (fetchO : String → FetchOutcome) (cache : ImageCache)
    (v : Option JSVal) (label notObjMsg : String) : SectionRes :=
  if !truthyO v then ⟨[], [], cache⟩
  else
    match v with
    | some mv =>
      if isObjectType mv then
        let call := checkImage fetchO cache (getField mv "url") label
        ⟨imgErrPush call.ret, imgWarnPush call.ret, call.cache⟩
      else ⟨[some notObjMsg], [], cache⟩
    | none => ⟨[], [], cache⟩

/-- The author section of the later `checkJSON`: for a truthy object,
length-check `author.name`, validate `author.url`, probe
`author.icon_url`, and warn when URL and icon would be dropped for lack
of a name; truthy non-objects are an error. -/
def authorChecks (fetchO : String → FetchOutcome) (cache : ImageCache)
    (author : Option JSVal) : SectionRes :=
  if !truthyO author then ⟨[], [], cache⟩
  else
    match author with
    | some av =>
      if isObjectType av then
        let name := getField av "name"
        let aurl := getField av "url"
        let icon := getField av "icon_url"
        let e1 := getStringErrors name "Author name" true 256
        let e2 : Option String :=
          if !isValidURL aurl then some "Author has an invalid URL" else none
        let call := checkImage fetchO cache icon "Author icon"
        let w2 : Option String :=
          if isStringEmpty name && (truthyO aurl || truthyO icon) then
            some "Author URL and icon will not be shown without a name"
          else none
        ⟨[e1, e2] ++ imgErrPush call.ret, imgWarnPush call.ret ++ [w2], call.cache⟩
      else ⟨[some "Author is not an object"], [], cache⟩
    | none => ⟨[], [], cache⟩

/-- The per-entry body of `fields.forEach` in the later `checkJSON`
(1-based ordinals): falsy entries are empty, primitive entries are not
objects, and object entries get name, value and inline checks. -/
def fieldErrors (i : Nat) (field : JSVal) : List (Option String) :=
  if !truthyV field then [some (ordinal (i + 1) ++ " field is empty")]
  else if !isObjectType field then [some (ordinal (i + 1) ++ " field is not an object")]
  else
    let name := getField field "name"
    let value := getField field "value"
    let inl := getField field "inline"
    [getStringErrors name (ordinal (i + 1) ++ " field's name") false 256,
     getStringErrors value (ordinal (i + 1) ++ " field's value") false 1024]
    ++ (match inl with
        | some iv => if !(iv matches .bool _) then
            [some (ordinal (i + 1) ++ " field inline is not a boolean")]
          else []
        | none => [])

/-- The `fields.forEach` loop of the later `checkJSON`, run only when
`fields` is an array. -/
def fieldsChecks (fields : Option JSVal) : List (Option String) :=
  match fields with
  | some (.arr xs) => (xs.enum.map fun p => fieldErrors p.1 p.2).flatten
  | _ => []

/-- The no-content condition of the later `checkJSON`: title,
description, author name and footer text are all empty, and fields is
absent or of length `=== 0`. -/
def noContent (title description author footer fields : Option JSVal) : Bool :=
  isStringEmpty title && isStringEmpty description
    && (!truthyO author || isStringEmpty (getFieldO author "name"))
    && (!truthyO footer || isStringEmpty (getFieldO footer "text"))
    && (!truthyO fields || jsLengthEq0 fields)

/-- `validKeys` (later draft): the top-level key allow-list. -/
def validKeys : List String :=
  ["title", "type", "description", "url", "timestamp", "color", "footer",
   "image", "thumbnail", "author", "fields"]

/-- The warning text for a top-level key outside the allow-list. -/
def invalidKeyMsg (key : String) : String :=
  "\"" ++ key ++ "\" is not a valid key"

/-- `Object.keys` on a defined value: property names of objects, index
strings for arrays and strings, nothing for primitives. -/
def jsKeys : JSVal → List String
  | .obj props => props.map Prod.fst
  | .arr xs => (List.range xs.length).map Nat.repr
  | .str s => (List.range s.length).map Nat.repr
  | _ => []

/-- `CheckResult` of the later draft: the warnings and errors lists. -/
structure CheckResult where
  warnings : List String
  errors : List String
  deriving Repr, DecidableEq

/-- Every push the later `checkJSON` makes before its final unknown-key
pass, in source order (`null` pushes included), with the cache after the
image probes. -/
def preChecks (fetchO : String → FetchOutcome) (cache : ImageCache)
    (data : String) (jv : JSVal) : SectionRes :=
  let title := getField jv "title"
  let description := getField jv "description"
  let url := getField jv "url"
  let timestamp := getField jv "timestamp"
  let color := getField jv "color"
  let footer := getField jv "footer"
  let image := getField jv "image"
  let thumbnail := getField jv "thumbnail"
  let author := getField jv "author"
  let fields := getField jv "fields"
  let e1 := getStringErrors title "Title" true 256
  let e2 := getStringErrors description "Description" true 4096
  let e3 : Option String :=
    if truthyO url && !isValidURL url then some "URL is invalid" else none
  let w1 : Option String :=
    if isStringEmpty title && truthyO url then
      some "URL will not be shown if there is no title"
    else none
  let e4 : Option String :=
    if truthyO timestamp && !isISODate timestamp then
      some "Timestamp is invalid"
    else none
  let e5 : Option String :=
    if truthyO color && !isValidColor color then some "Color is invalid" else none
  let sF := footerChecks fetchO cache footer
  let sI := mediaChecks fetchO sF.cache image "Image" "Image is not an object"
  let sT := mediaChecks fetchO sI.cache thumbnail "Thumbnail" "Thumbnail is not an object"
  let sA := authorChecks fetchO sT.cache author
  let e6 : Option String :=
    if truthyO fields && !isArrayO fields then some "Fields is not an array" else none
  let e7 : Option String :=
    if truthyO fields && jsLengthGt fields 25 then some "Too many fields (>25)" else none
  let pf := fieldsChecks fields
  let e8 : Option String :=
    if noContent title description author footer fields then
      some "No content (title, description, author, footer, or fields)."
    else none
  let e9 : Option String :=
    if data.length > 6000 then some "JSON is too long (>6000 characters)" else none
  ⟨[e1, e2, e3, e4, e5] ++ sF.errs ++ sI.errs ++ sT.errs ++ sA.errs
     ++ [e6, e7] ++ pf ++ [e8, e9],
   [w1] ++ sF.warns ++ sI.warns ++ sT.warns ++ sA.warns,
   sA.cache⟩

/-- `checkJSON` (later draft, `src/script.js`).  `json` is the result of
`JSON.parse(data)`, `none` when the parse throws; a falsy parse result is
rejected outright as invalid JSON.  Otherwise every rule runs, pushing
onto the errors and warnings lists in source order (`preChecks`),
followed by the unknown-top-level-key warning pass; `null` entries are
filtered out at the end. -/
def checkJSON (fetchO : String → FetchOutcome) (cache : ImageCache)
    (data : String) (json : Option JSVal) : CheckResult × ImageCache :=
  match json with
  | none => (⟨[], ["JSON is invalid"]⟩, cache)
  | some jv =>
    if !truthyV jv then (⟨[], ["JSON is invalid"]⟩, cache)
    else
      let p := preChecks fetchO cache data jv
      let kw : List (Option String) :=
        (jsKeys jv).map fun k =>
          if validKeys.contains k then none else some (invalidKeyMsg k)
      (⟨(p.warns ++ kw).filterMap id, p.errs.filterMap id⟩, p.cache)

/-- A fixed fetch oracle for concrete evaluations (every request fails in
transport; no concrete claim input reaches the network). -/
def failFetch : String → FetchOutcome := fun _ => .failure

example :
    (checkJSON failFetch [] "\x7b\"title\":\"Hi\"\x7d"
      (some (.obj [("title", .str "Hi")]))).1 = ⟨[], []⟩ := by decide

example :
    (checkJSON failFetch [] "\x7b\"url\":\"http://example.com\"\x7d"
      (some (.obj [("url", .str "http://example.com")]))).1 =
    ⟨["URL will not be shown if there is no title"],
     ["No content (title, description, author, footer, or fields)."]⟩ := by decide

example :
    (checkJSON failFetch [] "\x7b\"fields\":[\x7b\"name\":\"\",\"value\":\"x\"\x7d]\x7d"
      (some (.obj [("fields", .arr [.obj [("name", .str ""), ("value", .str "x")]])]))).1 =
    ⟨[], ["1st field's name is empty"]⟩ := by decide

example :
    (checkJSON failFetch [] "\x7b\"color\": 99999999\x7d"
      (some (.obj [("color", .num 99999999)]))).1.errors =
    ["Color is invalid",
     "No content (title, description, author, footer, or fields)."] := by decide

/-!
The earlier draft (`src/unnamed/part_000`): a synchronous `checkJSON`
with a regex URL validator, 0-based field ordinals, no image prober and
no unknown-key pass.  JS property and `length` accesses that throw
(`undefined`/`null` receivers) are modelled in `Except String`, the
error value standing for the thrown `TypeError`.
-/

/-- Lowercase ASCII letter or digit (the regex classes are applied to the
lowercased input, which models the `i` flag). -/
def isLowerAlnum (c : Char) : Bool :=
  ('a' ≤ c && c ≤ 'z') || c.isDigit

/-- Split a character list at every `'.'` (the components of the host
between dots; empty components are kept, as with `String.splitOn`). -/
def splitOnDot : List Char → List (List Char)
  | [] => [[]]
  | '.' :: rest => [] :: splitOnDot rest
  | c :: rest =>
    match splitOnDot rest with
    | h :: t => (c :: h) :: t
    | [] => [[c]]

/-- One domain label of the v0 URL regex, `[a-z\d]([a-z\d-]*[a-z\d])*`:
nonempty, alphanumeric-or-hyphen, first and last alphanumeric. -/
def validLabel (l : List Char) : Bool :=
  !l.isEmpty
    && l.all (fun c => isLowerAlnum c || c == '-')
    && (match l.head? with | some c => isLowerAlnum c | none => false)
    && (match l.getLast? with | some c => isLowerAlnum c | none => false)

/-- The v0 domain alternative `(([a-z\d]([a-z\d-]*[a-z\d])*)\.)+[a-z]{2,}`:
at least one dot, every leading component a label, the final component at
least two lowercase letters. -/
def validDomain (l : List Char) : Bool :=
  let parts := splitOnDot l
  parts.length ≥ 2
    && (parts.dropLast.all validLabel)
    && (match parts.getLast? with
        | some tld => tld.length ≥ 2 && tld.all (fun c => 'a' ≤ c && c ≤ 'z')
        | none => false)

/-- The v0 IPv4 alternative `(\d{1,3}\.){3}\d{1,3}`. -/
def validIPv4 (l : List Char) : Bool :=
  let parts := splitOnDot l
  parts.length == 4
    && parts.all fun p => 1 ≤ p.length && p.length ≤ 3 && p.all Char.isDigit

/-- A character allowed in the host of the v0 regex (`[a-z\d-.]`); the
characters that open the port, path, query and fragment parts are outside
this class, so the host match is the maximal such run. -/
def isHostChar (c : Char) : Bool :=
  isLowerAlnum c || c == '-' || c == '.'

/-- A character of a v0 path segment, `[-a-z\d%_.~+]`. -/
def isPathChar (c : Char) : Bool :=
  c == '-' || isLowerAlnum c || c == '%' || c == '_' || c == '.' || c == '~' || c == '+'

/-- A character of the v0 query part, `[;&a-z\d%_.~+=-]`. -/
def isQueryChar (c : Char) : Bool :=
  c == ';' || c == '&' || isLowerAlnum c || c == '%' || c == '_' || c == '.'
    || c == '~' || c == '+' || c == '=' || c == '-'

/-- A character of the v0 fragment part, `[-a-z\d_]`. -/
def isFragChar (c : Char) : Bool :=
  c == '-' || isLowerAlnum c || c == '_'

/-- The path part `(/[-a-z\d%_.~+]*)*` of the v0 regex: a `/`-led run
over `/` and segment characters.  Such runs are exactly the
concatenations of `/`-led segments, and the query/fragment/end anchors
that follow force the greedy, maximal run. -/
def eatPath (cs : List Char) : List Char :=
  match cs with
  | '/' :: _ => cs.dropWhile fun c => c == '/' || isPathChar c
  | _ => cs

/-- The port, path, query and fragment tail of the v0 regex,
`(\:\d+)?(\/[-a-z\d%_.~+]*)*(\?[;&a-z\d%_.~+=-]*)?(\#[-a-z\d_]*)?$`,
applied after the host. -/
def matchV0Tail (cs : List Char) : Bool :=
  let portOk : Bool × List Char :=
    match cs with
    | ':' :: rest => (!(rest.takeWhile Char.isDigit).isEmpty, rest.dropWhile Char.isDigit)
    | _ => (true, cs)
  portOk.1 &&
    (let cs := eatPath portOk.2
     let cs := match cs with
       | '?' :: rest => rest.dropWhile isQueryChar
       | _ => cs
     let cs := match cs with
       | '#' :: rest => rest.dropWhile isFragChar
       | _ => cs
     cs.isEmpty)

/-- The whole v0 URL regex on a lowercased character list: optional
`http(s)://` scheme (unambiguous, since a scheme-less match cannot
contain `:` or `/` inside the host), then domain-or-IPv4 host as the
maximal host-character run, then the tail. -/
def matchV0URL (cs : List Char) : Bool :=
  let cs :=
    if cs.take 8 == "https://".data then cs.drop 8
    else if cs.take 7 == "http://".data then cs.drop 7
    else cs
  let host := cs.takeWhile isHostChar
  (validDomain host || validIPv4 host) && matchV0Tail (cs.dropWhile isHostChar)

/-- `isValidURL` (earlier draft, `src/unnamed/part_000`): non-strings are
invalid; strings are tested against the URL regex, case-insensitively. -/
def isValidURLv0 (v : Option JSVal) : Bool :=
  match v with
  | some (.str s) => matchV0URL (s.data.map Char.toLower)
  | _ => false

example : isValidURLv0 (some (.str "http://example.com")) = true := by decide
example : isValidURLv0 (some (.str "Example.COM/path?a=b#frag")) = true := by decide
example : isValidURLv0 (some (.str "1.2.3.4:8080/x")) = true := by decide
example : isValidURLv0 (some (.str "not a url")) = false := by decide
example : isValidURLv0 (some (.str "example")) = false := by decide
example : isValidURLv0 none = false := by decide

/-- `CheckResult` of the earlier draft, which also carries the computed
`valid` flag. -/
structure CheckResultV0 where
  valid : Bool
  warnings : List String
  errors : List String
  deriving Repr, DecidableEq

/-- A JS property access `v.k` that throws a `TypeError` when the
receiver is `undefined` or `null`. -/
def getMemberE (v : Option JSVal) (k : String) : Except String (Option JSVal) :=
  match v with
  | none => .error "TypeError"
  | some .null => .error "TypeError"
  | some w => .ok (getField w k)

/-- A JS `v.length` access that throws a `TypeError` when the receiver is
`undefined` or `null`; numbers such as string and array lengths, and
`undefined` (`none`) for receivers without a `length` property. -/
def getLengthE (v : Option JSVal) : Except String (Option Int) :=
  match v with
  | none => .error "TypeError"
  | some .null => .error "TypeError"
  | some (.arr xs) => .ok (some xs.length)
  | some (.str s) => .ok (some s.length)
  | some _ => .ok none

/-- The per-entry body of `fields.forEach` in the earlier draft: no early
returns, so `field.name` is accessed even for falsy entries and throws on
`null`; ordinals are 0-based and the messages have no apostrophe-s. -/
def fieldErrorsV0 (i : Nat) (field : JSVal) : Except String (List (Option String)) := do
  let base : List (Option String) :=
    if !truthyV field then [some (ordinal i ++ " field is empty")] else []
  let name ← getMemberE (some field) "name"
  let e1 := getStringErrors name (ordinal i ++ " field name") false 256
  let value ← getMemberE (some field) "value"
  let e2 := getStringErrors value (ordinal i ++ " field value") false 1024
  let inl ← getMemberE (some field) "inline"
  let e3 : List (Option String) :=
    if truthyO inl && !(inl matches some (.bool _)) then
      [some (ordinal i ++ " field inline is not a boolean")]
    else []
  return base ++ [e1, e2] ++ e3

/-- `checkJSON` (earlier draft, `src/unnamed/part_000`).  Same parse
gate; footer/image/thumbnail/author URLs go through the regex validator
instead of an image probe; the no-content condition is
`... && !fields && fields.length === 0`, whose `length` access throws a
`TypeError` whenever it is reached with `fields` absent or `null`. -/
def checkJSONv0 (data : String) (json : Option JSVal) :
    Except String CheckResultV0 := do
  match json with
  | none => return ⟨false, [], ["JSON is invalid"]⟩
  | some jv =>
    if !truthyV jv then return ⟨false, [], ["JSON is invalid"]⟩
    else
      let title := getField jv "title"
      let description := getField jv "description"
      let url := getField jv "url"
      let timestamp := getField jv "timestamp"
      let color := getField jv "color"
      let footer := getField jv "footer"
      let image := getField jv "image"
      let thumbnail := getField jv "thumbnail"
      let author := getField jv "author"
      let fields := getField jv "fields"
      let e1 := getStringErrors title "Title" true 256
      let e2 := getStringErrors description "Description" true 4096
      let e3 : Option String :=
        if truthyO url && !isValidURLv0 url then some "URL is invalid" else none
      let w1 : Option String :=
        if isStringEmpty title && truthyO url then
          some "URL will not be shown if there is no title"
        else none
      let e4 : Option String :=
        if truthyO timestamp && !isISODate timestamp then
          some "Timestamp is invalid"
        else none
      let e5 : Option String :=
        if truthyO color && !isValidColor color then some "Color is invalid" else none
      let e6 : Option String :=
        if truthyO footer then getStringErrors (getFieldO footer "text") "Footer" true 2048
        else none
      let e7 : Option String :=
        if truthyO footer && !isValidURLv0 (getFieldO footer "icon_url") then
          some "Footer has an invalid icon URL"
        else none
      let w2 : Option String :=
        if truthyO footer && isStringEmpty (getFieldO footer "text")
            && truthyO (getFieldO footer "icon_url") then
          some "Footer icon will not be shown without text"
        else none
      let e8 : Option String :=
        if truthyO image && !isValidURLv0 (getFieldO image "url") then
          some "Image has an invalid URL"
        else none
      let e9 : Option String :=
        if truthyO thumbnail && !isValidURLv0 (getFieldO thumbnail "url") then
          some "Thumbnail has an invalid URL"
        else none
      let e10 : Option String :=
        if truthyO author then
          getStringErrors (getFieldO author "name") "Author name" true 256
        else none
      let e11 : Option String :=
        if truthyO author && !isValidURLv0 (getFieldO author "url") then
          some "Author has an invalid URL"
        else none
      let e12 : Option String :=
        if truthyO author && !isValidURLv0 (getFieldO author "icon_url") then
          some "Author has an invalid icon URL"
        else none
      let w3 : Option String :=
        if truthyO author && isStringEmpty (getFieldO author "name")
            && (truthyO (getFieldO author "url")
                || truthyO (getFieldO author "icon_url")) then
          some "Author URL and icon will not be shown without a name"
        else none
      let e13 : Option String :=
        if truthyO fields && !isArrayO fields then some "Fields is not an array" else none
      let e14 : Option String :=
        if truthyO fields && jsLengthGt fields 25 then some "Too many fields (>25)" else none
      let pf ← match fields with
        | some (.arr xs) =>
          xs.enum.foldlM (fun acc p => do
            let es ← fieldErrorsV0 p.1 p.2
            pure (acc ++ es)) ([] : List (Option String))
        | _ => pure ([] : List (Option String))
      let ncPrefix := isStringEmpty title && isStringEmpty description
        && (!truthyO author || isStringEmpty (getFieldO author "name"))
        && (!truthyO footer || isStringEmpty (getFieldO footer "text"))
      let e15 : Option String ←
        if ncPrefix && !truthyO fields then do
          let len ← getLengthE fields
          pure (if len == some 0 then
            some "No content (title, description, author, footer, or fields)."
          else none)
        else pure none
      let e16 : Option String :=
        if data.length > 6000 then some "JSON is too long (>6000 characters)" else none
      let errs := [e1, e2, e3, e4, e5, e6, e7, e8, e9, e10, e11, e12, e13, e14]
        ++ pf ++ [e15, e16]
      let warns := [w1, w2, w3]
      let errors := errs.filterMap id
      return ⟨errors.isEmpty, warns.filterMap id, errors⟩

example : checkJSONv0 "\x7b\x7d" (some (.obj [])) = .error "TypeError" := by rfl
example :
    checkJSONv0 "\x7b\"title\":\"Hi\"\x7d" (some (.obj [("title", .str "Hi")]))
      = .ok ⟨true, [], []⟩ := by rfl

/-! Claim theorems. -/

/-- C3: for every input string that does not parse as JSON (the parse
result is `none`), `checkJSON` returns exactly errors
`["JSON is invalid"]` and no warnings, leaving the cache untouched — no
other rule runs. -/
theorem checkJSON_unparsable (fetchO : String → FetchOutcome) (cache : ImageCache)
    (data : String) :
    checkJSON fetchO cache data none = (⟨[], ["JSON is invalid"]⟩, cache) := rfl

/-- C9: the four falsy-but-well-formed JSON texts `false`, `null`, `0`
and `""` parse successfully, yet `checkJSON` returns the same result as
for unparsable text: errors `["JSON is invalid"]`, no warnings. -/
theorem checkJSON_falsy_parse (fetchO : String → FetchOutcome) (cache : ImageCache) :
    checkJSON fetchO cache "false" (some (.bool false)) = (⟨[], ["JSON is invalid"]⟩, cache)
  ∧ checkJSON fetchO cache "null" (some .null) = (⟨[], ["JSON is invalid"]⟩, cache)
  ∧ checkJSON fetchO cache "0" (some (.num 0)) = (⟨[], ["JSON is invalid"]⟩, cache)
  ∧ checkJSON fetchO cache "\"\"" (some (.str "")) = (⟨[], ["JSON is invalid"]⟩, cache) :=
  ⟨rfl, rfl, rfl, rfl⟩

/-- C7: whenever `n % 100` has tens digit 1 the ordinal suffix is `th`,
and the sampled values agree with their English ordinals. -/
theorem ordinal_props :
    (∀ n : Nat, 0 < n → n % 100 / 10 = 1 → ordinal n = Nat.repr n ++ "th")
  ∧ ordinal 1 = "1st" ∧ ordinal 2 = "2nd" ∧ ordinal 3 = "3rd"
  ∧ ordinal 21 = "21st" ∧ ordinal 100 = "100th" := by
  refine ⟨?_, by decide, by decide, by decide, by decide, by decide⟩
  intro n hn h
  show Nat.repr n ++ suffixFor (n % 100) = Nat.repr n ++ "th"
  congr 1
  have h100 : n % 100 < 100 := Nat.mod_lt _ (by norm_num)
  have h10 : 10 ≤ n % 100 := by omega
  have h19 : n % 100 ≤ 19 := by omega
  set m := n % 100 with hm
  interval_cases m <;> decide

/-- Witness for C7 at `n = 111` (tens digit of `111 % 100` is 1). -/
theorem ordinal_props_witness : ordinal 111 = Nat.repr 111 ++ "th" :=
  ordinal_props.1 111 (by decide) (by decide)

/-- The input of Scenario C. -/
def dataScenarioC : String := "\x7b\"fields\":[\x7b\"name\":\"\",\"value\":\"x\"\x7d]\x7d"

/-- The parse of the Scenario C input. -/
def jsonScenarioC : JSVal :=
  .obj [("fields", .arr [.obj [("name", .str ""), ("value", .str "x")]])]

/-- C6: on `\x7b"fields":[\x7b"name":"","value":"x"\x7d]\x7d` the error
list contains "1st field's name is empty" — field positions are reported
with 1-based ordinals. -/
theorem checkJSON_first_field_name_empty :
    "1st field's name is empty" ∈
      (checkJSON failFetch [] dataScenarioC (some jsonScenarioC)).1.errors := by decide

/-- The input of Scenario B. -/
def dataScenarioB : String := "\x7b\"url\":\"http://example.com\"\x7d"

/-- The parse of the Scenario B input. -/
def jsonScenarioB : JSVal := .obj [("url", .str "http://example.com")]

/-- C1, counterexample: on `\x7b"url":"http://example.com"\x7d` (no
title) the error list is NOT empty, contrary to the claim — the
document has no title, description, author, footer or fields, so the
no-content rule fires. -/
theorem checkJSON_url_only_errors_nonempty :
    (checkJSON failFetch [] dataScenarioB (some jsonScenarioB)).1.errors ≠ [] := by decide

/-- C1, amended: on `\x7b"url":"http://example.com"\x7d` (no title) the
result is exactly the single warning "URL will not be shown if there is
no title" together with the single error "No content (title,
description, author, footer, or fields).". -/
theorem checkJSON_url_only_result :
    (checkJSON failFetch [] dataScenarioB (some jsonScenarioB)).1 =
      ⟨["URL will not be shown if there is no title"],
       ["No content (title, description, author, footer, or fields)."]⟩ := by decide

/-- C2: the earlier draft (`src/unnamed/part_000`) breaks the no-throw
contract: on the well-formed input `\x7b\x7d` its `checkJSON` evaluates
`fields.length` with `fields` undefined (the no-content condition
`!fields && fields.length === 0`) and throws a `TypeError` instead of
returning a result.  (The later draft guards this with
`(!fields || fields.length === 0)` and returns normally.) -/
theorem checkJSONv0_throws_on_empty_object :
    checkJSONv0 "\x7b\x7d" (some (.obj [])) = .error "TypeError" := rfl

/-- Looking up the key just stored by `cacheSet` yields the stored
entry. -/
theorem lookup_cacheSet_self (c : ImageCache) (k : String) (v : Classified) :
    (cacheSet c k v).lookup k = some v := by
  induction c with
  | nil => simp [cacheSet, List.lookup]
  | cons hd tl ih =>
    obtain ⟨k', v'⟩ := hd
    by_cases h : k' = k
    · subst h; simp [cacheSet, List.lookup]
    · have hb1 : (k' == k) = false := beq_eq_false_iff_ne.mpr h
      have hb2 : (k == k') = false := beq_eq_false_iff_ne.mpr fun e => h e.symm
      simp [cacheSet, List.lookup, hb1, hb2, ih]

/-- A successful lookup locates an entry of the list. -/
theorem lookup_mem (c : ImageCache) (k : String) (v : Classified)
    (h : c.lookup k = some v) : (k, v) ∈ c := by
  induction c with
  | nil => simp [List.lookup] at h
  | cons hd tl ih =>
    obtain ⟨k', v'⟩ := hd
    by_cases hk : k = k'
    · subst hk
      simp [List.lookup] at h
      simp [h]
    · have hb : (k == k') = false := beq_eq_false_iff_ne.mpr hk
      simp [List.lookup, hb] at h
      exact List.mem_cons_of_mem _ (ih h)

/-- C4: two sequential `checkImage` calls on the same truthy,
syntactically valid URL string issue at most one fetch in total, and the
second call returns exactly the first call's result — the first call
always stores the classification under the URL, so the second is a cache
hit. -/
theorem checkImage_memoized (fetchO : String → FetchOutcome) (cache : ImageCache)
    (u pre : String) (hu : truthyO (some (.str u)) = true)
    (hv : isValidURL (some (.str u)) = true) :
    (checkImage fetchO cache (some (.str u)) pre).fetches
      + (checkImage fetchO (checkImage fetchO cache (some (.str u)) pre).cache
          (some (.str u)) pre).fetches ≤ 1
  ∧ (checkImage fetchO (checkImage fetchO cache (some (.str u)) pre).cache
        (some (.str u)) pre).ret
      = (checkImage fetchO cache (some (.str u)) pre).ret := by
  cases hhit : cache.lookup u with
  | some entry => simp [checkImage, hu, hv, hhit, lookup_cacheSet_self]
  | none => simp [checkImage, hu, hv, hhit, lookup_cacheSet_self]

/-- Witness for C4: two probes of `http://example.com` from an empty
cache fetch once and agree. -/
theorem checkImage_memoized_witness :
    (checkImage failFetch [] (some (.str "http://example.com")) "Image").fetches
      + (checkImage failFetch
          (checkImage failFetch [] (some (.str "http://example.com")) "Image").cache
          (some (.str "http://example.com")) "Image").fetches ≤ 1
  ∧ (checkImage failFetch
        (checkImage failFetch [] (some (.str "http://example.com")) "Image").cache
        (some (.str "http://example.com")) "Image").ret
      = (checkImage failFetch [] (some (.str "http://example.com")) "Image").ret :=
  checkImage_memoized failFetch [] "http://example.com" "Image" (by decide) (by decide)

/-- No entry of the cache is marked with kind `error` (an invariant of
the real cache: every stored entry comes from `classify`). -/
def CacheNoError (c : ImageCache) : Prop := ∀ e ∈ c, e.2.kind ≠ some "error"

/-- The classification of any fetch outcome is a warning or no issue,
never an error. -/
theorem classify_kind_not_error (o : FetchOutcome) :
    (classify o).kind = some "warning" ∨ (classify o).kind = none := by
  rcases o with _ | ⟨ok, status, statusText, contentType⟩
  · exact Or.inl rfl
  · simp only [classify]
    split
    · exact Or.inl rfl
    · cases contentType with
      | none => exact Or.inl rfl
      | some ct =>
        cases hsw : strStartsWith ct "image/"
        · simp [hsw]
        · cases hct : ["image/png", "image/jpeg", "image/gif", "image/webp"].contains ct
          · have hnot : ¬ct = "image/png" ∧ ¬ct = "image/jpeg"
                ∧ ¬ct = "image/gif" ∧ ¬ct = "image/webp" := by
              simpa [not_or] using hct
            simp [hsw, hnot]
          · have hor : ct = "image/png" ∨ ct = "image/jpeg"
                ∨ ct = "image/gif" ∨ ct = "image/webp" := by
              simpa using hct
            rcases hor with h | h | h | h <;> subst h <;> simp [hsw]

/-- C5: a truthy non-string URL and a truthy string failing URL
validation always come back with kind `error`; every network and
content-type outcome classifies as a warning or as no issue; and on a
valid URL (with a cache holding no error entries) the result is never an
error. -/
theorem checkImage_severity (fetchO : String → FetchOutcome) (cache : ImageCache)
    (pre : String) (hc : CacheNoError cache) :
    (∀ v : JSVal, truthyV v = true → (∀ s, v ≠ .str s) →
        retKind (checkImage fetchO cache (some v) pre).ret = some "error")
  ∧ (∀ s : String, truthyV (.str s) = true → isValidURL (some (.str s)) = false →
        retKind (checkImage fetchO cache (some (.str s)) pre).ret = some "error")
  ∧ (∀ o : FetchOutcome, (classify o).kind = some "warning" ∨ (classify o).kind = none)
  ∧ (∀ s : String, truthyV (.str s) = true → isValidURL (some (.str s)) = true →
        retKind (checkImage fetchO cache (some (.str s)) pre).ret ≠ some "error") := by
  refine ⟨?_, ?_, classify_kind_not_error, ?_⟩
  · intro v hv hs
    cases v with
    | null => simp [truthyV] at hv
    | bool b =>
      cases b
      · simp [truthyV] at hv
      · simp [checkImage, truthyO, truthyV, retKind]
    | num n =>
      have hn : n ≠ 0 := by simpa [truthyV] using hv
      simp [checkImage, truthyO, truthyV, hn, retKind]
    | str s => exact absurd rfl (hs s)
    | arr xs => simp [checkImage, truthyO, truthyV, retKind]
    | obj props => simp [checkImage, truthyO, truthyV, retKind]
  · intro s ht hurl
    simp [checkImage, truthyO, ht, hurl, retKind]
  · intro s ht hurl
    cases hhit : cache.lookup s with
    | some entry =>
      have hne := hc _ (lookup_mem cache s entry hhit)
      simpa [checkImage, truthyO, ht, hurl, hhit, retKind] using hne
    | none =>
      rcases classify_kind_not_error (fetchO s) with h | h <;>
        simp [checkImage, truthyO, ht, hurl, hhit, retKind, h]

/-- Witness for C5: a truthy non-string URL (the number 5) reports with
kind `error`. -/
theorem checkImage_severity_witness :
    retKind (checkImage failFetch [] (some (.num 5)) "Image").ret = some "error" :=
  (checkImage_severity failFetch [] "Image"
      (fun e he => absurd he (List.not_mem_nil e))).1
    (.num 5) (by decide) (fun s h => JSVal.noConfusion h)

/-! Infrastructure for the unknown-key claims: every message pushed
before the unknown-key pass is distinct from every unknown-key warning,
because the latter start with a double quote and the former never do. -/

/-- No character of the string is a double quote. -/
def quoteFree (s : String) : Bool := s.data.all fun c => c != '"'

/-- `e` is not an unknown-key warning for any key. -/
def NotKeyMsg (e : String) : Prop := ∀ k, e ≠ invalidKeyMsg k

/-- The characters of an unknown-key warning: a double quote first. -/
theorem invalidKeyMsg_data (k : String) :
    (invalidKeyMsg k).data = '"' :: (k.data ++ "\" is not a valid key".data) := by
  have h : "\"".data = ['"'] := rfl
  simp [invalidKeyMsg, h]

/-- Unknown-key warnings are injective in the key. -/
theorem invalidKeyMsg_inj {a b : String} (h : invalidKeyMsg a = invalidKeyMsg b) :
    a = b := by
  have hd := congrArg String.data h
  rw [invalidKeyMsg_data, invalidKeyMsg_data] at hd
  have hd2 := List.tail_eq_of_cons_eq hd
  exact String.ext (List.append_cancel_right hd2)

/-- A string whose first character is not a double quote is no
unknown-key warning. -/
theorem notKeyMsg_of_head {e : String} (h : e.data.head? ≠ some '"') :
    NotKeyMsg e := by
  intro k hk
  apply h
  rw [hk, invalidKeyMsg_data]
  rfl

/-- A quote-free string is no unknown-key warning. -/
theorem notKeyMsg_of_quoteFree {e : String} (h : quoteFree e = true) :
    NotKeyMsg e := by
  intro k hk
  have hmem : '"' ∈ e.data := by
    rw [hk, invalidKeyMsg_data]; exact List.mem_cons_self _ _
  have := List.all_eq_true.mp h _ hmem
  simp at this

/-- Quote-freeness is preserved by concatenation. -/
theorem quoteFree_append {a b : String} (ha : quoteFree a = true)
    (hb : quoteFree b = true) : quoteFree (a ++ b) = true := by
  unfold quoteFree at *
  simp only [String.data_append, List.all_append, Bool.and_eq_true]
  exact ⟨ha, hb⟩

/-- Decimal digit characters are not double quotes. -/
theorem digitChar_ne_quote (n : Nat) : Nat.digitChar n ≠ '"' := by
  by_cases h : n < 16
  · interval_cases n <;> decide
  · unfold Nat.digitChar
    repeat rw [if_neg (by omega)]
    decide

/-- `Nat.toDigitsCore` only ever prepends digit characters. -/
theorem toDigitsCore_ne_quote :
    ∀ (fuel n : Nat) (ds : List Char), (∀ c ∈ ds, c ≠ '"') →
      ∀ c ∈ Nat.toDigitsCore 10 fuel n ds, c ≠ '"' := by
  intro fuel
  induction fuel with
  | zero => intro n ds hds; simpa [Nat.toDigitsCore] using hds
  | succ fuel ih =>
    intro n ds hds c hc
    simp only [Nat.toDigitsCore] at hc
    by_cases h : n / 10 = 0
    · rw [if_pos h] at hc
      rcases List.mem_cons.mp hc with h1 | h1
      · subst h1; exact digitChar_ne_quote _
      · exact hds c h1
    · rw [if_neg h] at hc
      refine ih (n / 10) _ ?_ c hc
      intro c' hc'
      rcases List.mem_cons.mp hc' with h1 | h1
      · subst h1; exact digitChar_ne_quote _
      · exact hds c' h1

/-- Decimal numerals contain no double quote. -/
theorem quoteFree_repr (n : Nat) : quoteFree (Nat.repr n) = true := by
  have hdata : (Nat.repr n).data = Nat.toDigits 10 n := rfl
  apply List.all_eq_true.mpr
  intro c hc
  rw [hdata] at hc
  simpa using toDigitsCore_ne_quote (n + 1) n [] (by intro c' hc'; cases hc') c hc

/-- Every defined ordinal suffix contains no double quote. -/
theorem suffixIdx_quoteFree (i : Int) (s : String) (h : suffixIdx i = some s) :
    quoteFree s = true := by
  unfold suffixIdx at h
  split_ifs at h <;> first
    | exact Option.noConfusion h
    | (injection h with h; subst h; decide)

/-- The chosen ordinal suffix contains no double quote. -/
theorem quoteFree_suffixFor (v : Nat) : quoteFree (suffixFor v) = true := by
  unfold suffixFor
  rcases h1 : suffixIdx (Int.tmod ((v : Int) - 20) 10) with _ | s1
  · rcases h2 : suffixIdx (v : Int) with _ | s2
    · decide
    · exact suffixIdx_quoteFree _ _ h2
  · exact suffixIdx_quoteFree _ _ h1

/-- Ordinals contain no double quote. -/
theorem quoteFree_ordinal (n : Nat) : quoteFree (ordinal n) = true :=
  quoteFree_append (quoteFree_repr n) (quoteFree_suffixFor (n % 100))

/-- `getStringErrors` messages inherit quote-freeness from the label. -/
theorem getStringErrors_quoteFree (v : Option JSVal) (pre : String) (ae : Bool)
    (ml : Nat) (hp : quoteFree pre = true) (e : String)
    (h : getStringErrors v pre ae ml = some e) : quoteFree e = true := by
  unfold getStringErrors at h
  split_ifs at h
  · injection h with h; subst h
    exact quoteFree_append hp (by decide)
  · rcases v with _ | (_ | b | n | s | xs | props)
    all_goals first
      | (injection h with h; subst h; exact quoteFree_append hp (by decide))
      | skip
    -- the string case: only the too-long branch can produce a message
    dsimp only at h
    split_ifs at h
    injection h with h; subst h
    exact quoteFree_append
      (quoteFree_append (quoteFree_append hp (by decide)) (quoteFree_repr ml))
      (by decide)

/-- Every defined entry of a push list is distinct from every
unknown-key warning. -/
def PushesOk (l : List (Option String)) : Prop :=
  ∀ e : String, some e ∈ l → NotKeyMsg e

/-- The empty push list is fine. -/
theorem pushesOk_nil : PushesOk [] := by
  intro e he; simp at he

/-- Concatenation preserves `PushesOk`. -/
theorem pushesOk_append {l1 l2 : List (Option String)}
    (h1 : PushesOk l1) (h2 : PushesOk l2) : PushesOk (l1 ++ l2) := by
  intro e he
  rcases List.mem_append.mp he with h | h
  · exact h1 e h
  · exact h2 e h

/-- An extra head entry preserves `PushesOk` when it is itself fine. -/
theorem pushesOk_cons {o : Option String} {l : List (Option String)}
    (ho : ∀ e, o = some e → NotKeyMsg e) (hl : PushesOk l) :
    PushesOk (o :: l) := by
  intro e he
  rcases List.mem_cons.mp he with h | h
  · exact ho e h.symm
  · exact hl e h

/-- A conditional push of a quote-free literal is fine. -/
theorem iteSomeOk {c : Prop} [Decidable c] (s : String)
    (hs : quoteFree s = true) :
    ∀ e, (if c then some s else none) = some e → NotKeyMsg e := by
  intro e he
  split at he
  · injection he with he; subst he; exact notKeyMsg_of_quoteFree hs
  · exact Option.noConfusion he

/-- A push of a `getStringErrors` result under a quote-free label is
fine. -/
theorem gseOk (v : Option JSVal) (pre : String) (ae : Bool) (ml : Nat)
    (hp : quoteFree pre = true) :
    ∀ e, getStringErrors v pre ae ml = some e → NotKeyMsg e := fun e he =>
  notKeyMsg_of_quoteFree (getStringErrors_quoteFree v pre ae ml hp e he)

/-- Whatever text `checkImage` returns is empty or the label followed by
a space and more text. -/
theorem checkImage_text_shape (fetchO : String → FetchOutcome)
    (cache : ImageCache) (url : Option JSVal) (pre : String) :
    retText (checkImage fetchO cache url pre).ret = none
  ∨ retText (checkImage fetchO cache url pre).ret = some ""
  ∨ ∃ e l, retText (checkImage fetchO cache url pre).ret = some e
      ∧ e.data = pre.data ++ ' ' :: l := by
  cases ht : truthyO url with
  | false => left; simp [checkImage, ht, retText]
  | true =>
    cases url with
    | none => simp [truthyO] at ht
    | some v =>
      cases v with
      | str s =>
        cases hv : isValidURL (some (.str s)) with
        | false =>
          right; right
          refine ⟨pre ++ " is not a valid URL", "is not a valid URL".data, ?_, ?_⟩
          · simp [checkImage, ht, hv, retText]
          · simp [String.data_append]
        | true =>
          have hred : checkImage fetchO cache (some (.str s)) pre =
              let cls : Classified := match cache.lookup s with
                | some entry => entry
                | none => classify (fetchO s)
              ⟨.result ⟨match cls.text with
                  | none => none
                  | some t => if t == "" then some t else some (pre ++ " " ++ t),
                cls.kind⟩,
               cacheSet cache s cls,
               match cache.lookup s with | some _ => 0 | none => 1⟩ := by
            simp [checkImage, ht, hv]
          rw [hred]
          cases hcls : (match cache.lookup s with
              | some entry => entry
              | none => classify (fetchO s)).text with
          | none => left; simp [retText, hcls]
          | some t =>
            cases hte : t == "" with
            | true =>
              right; left
              have : t = "" := by simpa using hte
              simp [retText, hcls, hte, this]
            | false =>
              right; right
              refine ⟨pre ++ " " ++ t, t.data, ?_, ?_⟩
              · simp [retText, hcls, hte]
              · simp [String.data_append]
      | null => simp [truthyO, truthyV] at ht
      | bool b =>
        right; right
        refine ⟨pre ++ " is not a string", "is not a string".data, ?_, ?_⟩
        · cases b
          · simp [truthyO, truthyV] at ht
          · simp [checkImage, ht, retText]
        · simp [String.data_append]
      | num n =>
        right; right
        refine ⟨pre ++ " is not a string", "is not a string".data, ?_, ?_⟩
        · simp [checkImage, ht, retText]
        · simp [String.data_append]
      | arr xs =>
        right; right
        refine ⟨pre ++ " is not a string", "is not a string".data, ?_, ?_⟩
        · simp [checkImage, ht, retText]
        · simp [String.data_append]
      | obj props =>
        right; right
        refine ⟨pre ++ " is not a string", "is not a string".data, ?_, ?_⟩
        · simp [checkImage, ht, retText]
        · simp [String.data_append]

/-- `checkImage` texts under a label whose first character is not a
double quote are no unknown-key warnings. -/
theorem checkImage_text_notKeyMsg (fetchO : String → FetchOutcome)
    (cache : ImageCache) (url : Option JSVal) (pre : String)
    (hpre : pre.data.head? ≠ some '"') :
    ∀ e, retText (checkImage fetchO cache url pre).ret = some e → NotKeyMsg e := by
  intro e he
  rcases checkImage_text_shape fetchO cache url pre with h | h | ⟨e', l, h, hd⟩
  · rw [he] at h; exact Option.noConfusion h
  · rw [he] at h
    injection h with h
    subst h
    exact notKeyMsg_of_head (by simp)
  · rw [he] at h
    injection h with h
    subst h
    apply notKeyMsg_of_head
    rw [hd]
    cases hp : pre.data with
    | nil => simp
    | cons c cs =>
      rw [hp] at hpre
      simpa using hpre

/-- The error and warning pushes derived from one `checkImage` call are
fine when the label does not start with a double quote. -/
theorem checkImage_pushes_ok (fetchO : String → FetchOutcome)
    (cache : ImageCache) (url : Option JSVal) (pre : String)
    (hpre : pre.data.head? ≠ some '"') :
    PushesOk (imgErrPush (checkImage fetchO cache url pre).ret)
  ∧ PushesOk (imgWarnPush (checkImage fetchO cache url pre).ret) := by
  constructor
  · intro e he
    unfold imgErrPush at he
    split at he
    · have : retText (checkImage fetchO cache url pre).ret = some e := by
        simpa using (List.mem_singleton.mp he).symm
      exact checkImage_text_notKeyMsg fetchO cache url pre hpre e this
    · simp at he
  · intro e he
    unfold imgWarnPush at he
    split at he
    · have : retText (checkImage fetchO cache url pre).ret = some e := by
        simpa using (List.mem_singleton.mp he).symm
      exact checkImage_text_notKeyMsg fetchO cache url pre hpre e this
    · simp at he

/-- The footer section pushes are fine. -/
theorem footerChecks_ok (fetchO : String → FetchOutcome) (cache : ImageCache)
    (v : Option JSVal) :
    PushesOk (footerChecks fetchO cache v).errs
  ∧ PushesOk (footerChecks fetchO cache v).warns := by
  rcases v with _ | fv
  · exact ⟨pushesOk_nil, pushesOk_nil⟩
  · cases htr : truthyV fv with
    | false =>
      have hred : footerChecks fetchO cache (some fv) = ⟨[], [], cache⟩ := by
        simp [footerChecks, truthyO, htr]
      rw [hred]
      exact ⟨pushesOk_nil, pushesOk_nil⟩
    | true =>
      cases hobj : isObjectType fv with
      | false =>
        have hred : footerChecks fetchO cache (some fv) =
            ⟨[some "Footer is not an object"], [], cache⟩ := by
          simp [footerChecks, truthyO, htr, hobj]
        rw [hred]
        refine ⟨pushesOk_cons (fun e he => ?_) pushesOk_nil, pushesOk_nil⟩
        injection he with he; subst he
        exact notKeyMsg_of_quoteFree (by decide)
      | true =>
        have hred : footerChecks fetchO cache (some fv) =
            ⟨[getStringErrors (getField fv "text") "Footer" true 2048]
               ++ imgErrPush
                   (checkImage fetchO cache (getField fv "icon_url") "Footer icon").ret,
             imgWarnPush
                 (checkImage fetchO cache (getField fv "icon_url") "Footer icon").ret
               ++ [if isStringEmpty (getField fv "text")
                      && truthyO (getField fv "icon_url") then
                     some "Footer icon will not be shown without text"
                   else none],
             (checkImage fetchO cache (getField fv "icon_url") "Footer icon").cache⟩ := by
          simp [footerChecks, truthyO, htr, hobj]
        rw [hred]
        constructor
        · exact pushesOk_append
            (pushesOk_cons (gseOk _ "Footer" _ _ (by decide)) pushesOk_nil)
            (checkImage_pushes_ok fetchO cache (getField fv "icon_url")
              "Footer icon" (by decide)).1
        · exact pushesOk_append
            (checkImage_pushes_ok fetchO cache (getField fv "icon_url")
              "Footer icon" (by decide)).2
            (pushesOk_cons
              (iteSomeOk "Footer icon will not be shown without text" (by decide))
              pushesOk_nil)

/-- The image and thumbnail section pushes are fine when the label does
not start with a double quote and the type-error message is quote
free. -/
theorem mediaChecks_ok (fetchO : String → FetchOutcome) (cache : ImageCache)
    (v : Option JSVal) (label notObjMsg : String)
    (hl : label.data.head? ≠ some '"') (hm : quoteFree notObjMsg = true) :
    PushesOk (mediaChecks fetchO cache v label notObjMsg).errs
  ∧ PushesOk (mediaChecks fetchO cache v label notObjMsg).warns := by
  rcases v with _ | mv
  · exact ⟨pushesOk_nil, pushesOk_nil⟩
  · cases htr : truthyV mv with
    | false =>
      have hred : mediaChecks fetchO cache (some mv) label notObjMsg =
          ⟨[], [], cache⟩ := by
        simp [mediaChecks, truthyO, htr]
      rw [hred]
      exact ⟨pushesOk_nil, pushesOk_nil⟩
    | true =>
      cases hobj : isObjectType mv with
      | false =>
        have hred : mediaChecks fetchO cache (some mv) label notObjMsg =
            ⟨[some notObjMsg], [], cache⟩ := by
          simp [mediaChecks, truthyO, htr, hobj]
        rw [hred]
        refine ⟨pushesOk_cons (fun e he => ?_) pushesOk_nil, pushesOk_nil⟩
        injection he with he; subst he
        exact notKeyMsg_of_quoteFree hm
      | true =>
        have hred : mediaChecks fetchO cache (some mv) label notObjMsg =
            ⟨imgErrPush (checkImage fetchO cache (getField mv "url") label).ret,
             imgWarnPush (checkImage fetchO cache (getField mv "url") label).ret,
             (checkImage fetchO cache (getField mv "url") label).cache⟩ := by
          simp [mediaChecks, truthyO, htr, hobj]
        rw [hred]
        exact ⟨(checkImage_pushes_ok fetchO cache (getField mv "url") label hl).1,
          (checkImage_pushes_ok fetchO cache (getField mv "url") label hl).2⟩

/-- The author section pushes are fine. -/
theorem authorChecks_ok (fetchO : String → FetchOutcome) (cache : ImageCache)
    (v : Option JSVal) :
    PushesOk (authorChecks fetchO cache v).errs
  ∧ PushesOk (authorChecks fetchO cache v).warns := by
  rcases v with _ | av
  · exact ⟨pushesOk_nil, pushesOk_nil⟩
  · cases htr : truthyV av with
    | false =>
      have hred : authorChecks fetchO cache (some av) = ⟨[], [], cache⟩ := by
        simp [authorChecks, truthyO, htr]
      rw [hred]
      exact ⟨pushesOk_nil, pushesOk_nil⟩
    | true =>
      cases hobj : isObjectType av with
      | false =>
        have hred : authorChecks fetchO cache (some av) =
            ⟨[some "Author is not an object"], [], cache⟩ := by
          simp [authorChecks, truthyO, htr, hobj]
        rw [hred]
        refine ⟨pushesOk_cons (fun e he => ?_) pushesOk_nil, pushesOk_nil⟩
        injection he with he; subst he
        exact notKeyMsg_of_quoteFree (by decide)
      | true =>
        have hred : authorChecks fetchO cache (some av) =
            ⟨[getStringErrors (getField av "name") "Author name" true 256,
              if !isValidURL (getField av "url") then
                some "Author has an invalid URL"
              else none]
               ++ imgErrPush
                   (checkImage fetchO cache (getField av "icon_url") "Author icon").ret,
             imgWarnPush
                 (checkImage fetchO cache (getField av "icon_url") "Author icon").ret
               ++ [if isStringEmpty (getField av "name")
                      && (truthyO (getField av "url")
                          || truthyO (getField av "icon_url")) then
                     some "Author URL and icon will not be shown without a name"
                   else none],
             (checkImage fetchO cache (getField av "icon_url") "Author icon").cache⟩ := by
          simp [authorChecks, truthyO, htr, hobj]
        rw [hred]
        constructor
        · exact pushesOk_append
            (pushesOk_cons (gseOk _ "Author name" _ _ (by decide))
              (pushesOk_cons (iteSomeOk "Author has an invalid URL" (by decide))
                pushesOk_nil))
            (checkImage_pushes_ok fetchO cache (getField av "icon_url")
              "Author icon" (by decide)).1
        · exact pushesOk_append
            (checkImage_pushes_ok fetchO cache (getField av "icon_url")
              "Author icon" (by decide)).2
            (pushesOk_cons
              (iteSomeOk "Author URL and icon will not be shown without a name"
                (by decide))
              pushesOk_nil)

/-- The per-field pushes are fine (their labels are ordinals followed by
quote-free literals). -/
theorem fieldErrors_ok (i : Nat) (v : JSVal) : PushesOk (fieldErrors i v) := by
  unfold fieldErrors
  split
  · refine pushesOk_cons (fun e he => ?_) pushesOk_nil
    injection he with he; subst he
    exact notKeyMsg_of_quoteFree (quoteFree_append (quoteFree_ordinal _) (by decide))
  · split
    · refine pushesOk_cons (fun e he => ?_) pushesOk_nil
      injection he with he; subst he
      exact notKeyMsg_of_quoteFree (quoteFree_append (quoteFree_ordinal _) (by decide))
    · refine pushesOk_append
        (pushesOk_cons
          (gseOk _ (ordinal (i + 1) ++ " field's name") _ _
            (quoteFree_append (quoteFree_ordinal _) (by decide)))
          (pushesOk_cons
            (gseOk _ (ordinal (i + 1) ++ " field's value") _ _
              (quoteFree_append (quoteFree_ordinal _) (by decide)))
            pushesOk_nil)) ?_
      cases getField v "inline" with
      | none => exact pushesOk_nil
      | some iv =>
        rcases iv with _ | b | n | s | xs | props
        case bool => exact pushesOk_nil
        all_goals
          refine pushesOk_cons (fun e he => ?_) pushesOk_nil
        all_goals
          injection he with he; subst he;
            exact notKeyMsg_of_quoteFree
              (quoteFree_append (quoteFree_ordinal _) (by decide))

/-- The fields-loop pushes are fine. -/
theorem fieldsChecks_ok (v : Option JSVal) : PushesOk (fieldsChecks v) := by
  unfold fieldsChecks
  rcases v with _ | (_ | b | n | s | xs | props)
  case some.arr =>
    intro e he
    rcases List.mem_flatten.mp he with ⟨l, hl, hel⟩
    rcases List.mem_map.mp hl with ⟨p, _, rfl⟩
    exact fieldErrors_ok p.1 p.2 e hel
  all_goals exact pushesOk_nil

/-- `PushesOk` of an append splits. -/
theorem pushesOk_append_iff {l1 l2 : List (Option String)} :
    PushesOk (l1 ++ l2) ↔ PushesOk l1 ∧ PushesOk l2 := by
  constructor
  · intro h
    exact ⟨fun e he => h e (List.mem_append.mpr (Or.inl he)),
      fun e he => h e (List.mem_append.mpr (Or.inr he))⟩
  · intro h
    exact pushesOk_append h.1 h.2

/-- `PushesOk` of a cons splits. -/
theorem pushesOk_cons_iff {o : Option String} {l : List (Option String)} :
    PushesOk (o :: l) ↔ (∀ e, o = some e → NotKeyMsg e) ∧ PushesOk l := by
  constructor
  · intro h
    exact ⟨fun e he => h e (he ▸ List.mem_cons_self _ _),
      fun e he => h e (List.mem_cons_of_mem _ he)⟩
  · intro h
    exact pushesOk_cons h.1 h.2

/-- The empty push list is trivially fine. -/
theorem pushesOk_nil_iff : PushesOk ([] : List (Option String)) ↔ True :=
  iff_true_intro pushesOk_nil

/-- Nothing `checkJSON` pushes before the unknown-key pass is an
unknown-key warning. -/
theorem preChecks_ok (fetchO : String → FetchOutcome) (cache : ImageCache)
    (data : String) (jv : JSVal) :
    PushesOk (preChecks fetchO cache data jv).errs
  ∧ PushesOk (preChecks fetchO cache data jv).warns := by
  unfold preChecks
  simp only [pushesOk_append_iff, pushesOk_cons_iff, pushesOk_nil_iff,
    List.nil_append, List.append_nil, and_true, true_and]
  repeat' apply And.intro
  all_goals first
    | exact pushesOk_nil
    | exact (footerChecks_ok _ _ _).1
    | exact (footerChecks_ok _ _ _).2
    | exact (mediaChecks_ok _ _ _ _ _ (by decide) (by decide)).1
    | exact (mediaChecks_ok _ _ _ _ _ (by decide) (by decide)).2
    | exact (authorChecks_ok _ _ _).1
    | exact (authorChecks_ok _ _ _).2
    | exact fieldsChecks_ok _
    | exact gseOk _ _ _ _ (by decide)
    | exact iteSomeOk _ (by decide)

/-- For a truthy parse, `checkJSON` output is the filtered pre-pass lists
with the unknown-key warnings appended at the end of the warnings. -/
theorem checkJSON_truthy (fetchO : String → FetchOutcome) (cache : ImageCache)
    (data : String) (jv : JSVal) (hjv : truthyV jv = true) :
    (checkJSON fetchO cache data (some jv)).1.warnings
      = (preChecks fetchO cache data jv).warns.filterMap id
        ++ ((jsKeys jv).filterMap fun k =>
            if validKeys.contains k then none else some (invalidKeyMsg k))
  ∧ (checkJSON fetchO cache data (some jv)).1.errors
      = (preChecks fetchO cache data jv).errs.filterMap id := by
  constructor <;>
    simp [checkJSON, hjv, List.filterMap_append, List.filterMap_map, Function.comp]

/-- Filtered fine push lists never contain an unknown-key warning. -/
theorem keyMsg_not_in_filterMap (l : List (Option String)) (hok : PushesOk l)
    (k : String) : invalidKeyMsg k ∉ l.filterMap id := by
  intro hmem
  rcases List.mem_filterMap.mp hmem with ⟨a, ha, hae⟩
  cases a with
  | none => exact Option.noConfusion hae
  | some s =>
    have hs : s = invalidKeyMsg k := by simpa using hae
    subst hs
    exact hok _ ha k rfl

/-- Among the unknown-key warnings generated from a duplicate-free key
list, an unknown key appears exactly once. -/
theorem count_keyMsgs_eq_one (keys : List String) (hnd : keys.Nodup) (k : String)
    (hk : k ∈ keys) (hkv : validKeys.contains k = false) :
    (keys.filterMap fun q =>
        if validKeys.contains q then none
        else some (invalidKeyMsg q)).count (invalidKeyMsg k) = 1 := by
  induction keys with
  | nil => cases hk
  | cons a t ih =>
    rcases List.mem_cons.mp hk with rfl | hk'
    · rw [List.filterMap_cons]
      simp only [hkv, Bool.false_eq_true, if_false]
      rw [List.count_cons_self]
      have hzero : (t.filterMap fun q =>
          if validKeys.contains q then none
          else some (invalidKeyMsg q)).count (invalidKeyMsg k) = 0 := by
        rw [List.count_eq_zero]
        intro hmem
        rcases List.mem_filterMap.mp hmem with ⟨q, hq, he⟩
        by_cases hv : validKeys.contains q = true
        · rw [if_pos hv] at he; exact Option.noConfusion he
        · rw [if_neg hv] at he
          have hqk : q = k := invalidKeyMsg_inj (by simpa using he)
          subst hqk
          exact (List.nodup_cons.mp hnd).1 hq
      omega
    · by_cases hv : validKeys.contains a = true
      · rw [List.filterMap_cons]
        simp only [hv, if_true]
        exact ih (List.nodup_cons.mp hnd).2 hk'
      · rw [List.filterMap_cons]
        simp only [if_neg hv]
        have hne : a ≠ k := fun h => (List.nodup_cons.mp hnd).1 (h ▸ hk')
        rw [List.count_cons_of_ne (fun h => hne (invalidKeyMsg_inj h).symm)]
        exact ih (List.nodup_cons.mp hnd).2 hk'

/-- The key "type" never generates an unknown-key warning: it is on the
allow-list. -/
theorem type_not_in_keyMsgs (keys : List String) :
    invalidKeyMsg "type" ∉ keys.filterMap fun q =>
      if validKeys.contains q then none else some (invalidKeyMsg q) := by
  intro hmem
  rcases List.mem_filterMap.mp hmem with ⟨q, hq, he⟩
  by_cases hv : validKeys.contains q = true
  · rw [if_pos hv] at he; exact Option.noConfusion he
  · rw [if_neg hv] at he
    have hq2 : q = "type" := invalidKeyMsg_inj (by simpa using he)
    subst hq2
    exact hv (by decide)

/-- The input of Scenario F. -/
def dataScenarioF : String := "\x7b\"title\":\"Hi\",\"foo\":1\x7d"

/-- The parse of the Scenario F input. -/
def jsonScenarioF : JSVal := .obj [("title", .str "Hi"), ("foo", .num 1)]

/-- C8: in any parsed object, each top-level key outside the allow-list
contributes exactly one warning of the form `"{key}" is not a valid key`,
unknown keys never contribute an error, and the Scenario F document with
the extra key "foo" gets exactly that warning and stays valid. -/
theorem checkJSON_unknown_keys (fetchO : String → FetchOutcome) (cache : ImageCache)
    (data : String) (kvs : List (String × JSVal))
    (hnd : (kvs.map Prod.fst).Nodup) :
    (∀ k, k ∈ kvs.map Prod.fst → validKeys.contains k = false →
        ((checkJSON fetchO cache data (some (.obj kvs))).1).warnings.count
          (invalidKeyMsg k) = 1)
  ∧ (∀ k, invalidKeyMsg k ∉ ((checkJSON fetchO cache data (some (.obj kvs))).1).errors)
  ∧ ((checkJSON failFetch [] dataScenarioF (some jsonScenarioF)).1).warnings
      = [invalidKeyMsg "foo"]
  ∧ ((checkJSON failFetch [] dataScenarioF (some jsonScenarioF)).1).errors = [] := by
  obtain ⟨hw, he⟩ := checkJSON_truthy fetchO cache data (.obj kvs) rfl
  refine ⟨?_, ?_, by decide, by decide⟩
  · intro k hk hkv
    have hkeys : jsKeys (JSVal.obj kvs) = kvs.map Prod.fst := rfl
    rw [hw, List.count_append, hkeys,
      List.count_eq_zero.mpr
        (keyMsg_not_in_filterMap _ (preChecks_ok fetchO cache data _).2 k),
      count_keyMsgs_eq_one (kvs.map Prod.fst) hnd k hk hkv]
  · intro k
    rw [he]
    exact keyMsg_not_in_filterMap _ (preChecks_ok fetchO cache data _).1 k

/-- Witness for C8 on the Scenario F document: the unknown key "foo"
contributes exactly one warning. -/
theorem checkJSON_unknown_keys_witness :
    ((checkJSON failFetch [] dataScenarioF (some jsonScenarioF)).1).warnings.count
      (invalidKeyMsg "foo") = 1 :=
  (checkJSON_unknown_keys failFetch [] dataScenarioF
      [("title", .str "Hi"), ("foo", .num 1)] (by decide)).1 "foo" (by decide) (by decide)

/-- C10: the allow-list is exactly the eleven keys including "type", and
a top-level "type" key never produces an unknown-key warning. -/
theorem validKeys_allowlist (fetchO : String → FetchOutcome) (cache : ImageCache)
    (data : String) (kvs : List (String × JSVal)) :
    validKeys = ["title", "type", "description", "url", "timestamp", "color",
      "footer", "image", "thumbnail", "author", "fields"]
  ∧ invalidKeyMsg "type" ∉
      ((checkJSON fetchO cache data (some (.obj kvs))).1).warnings := by
  refine ⟨rfl, ?_⟩
  obtain ⟨hw, -⟩ := checkJSON_truthy fetchO cache data (.obj kvs) rfl
  rw [hw]
  intro hmem
  rcases List.mem_append.mp hmem with h | h
  · exact keyMsg_not_in_filterMap _ (preChecks_ok fetchO cache data _).2 "type" h
  · exact type_not_in_keyMsgs _ h
